import Mathlib

/-!
Verification of the trade-data-fetcher scrape-and-normalize pipeline
(src/app.py) against its natural-language specification.

The HTML page handed to the normalizer is modelled structurally: a page
either contains the table with id example1 or not; that table has an
optional tbody (a list of rows, each row the list of its td cell texts)
and an optional tfoot (a list of rows of td cell texts).  Cell text is
the text BeautifulSoup get_text with strip returns, modelled as the raw
string to which Python strip is applied.  Machine floats are modelled as
rationals; the inputs appearing in the claims are exactly representable,
so no rounding-error question arises.
-/

namespace TradeFetcher

/-- Python whitespace test used by str.strip and float, restricted to the
characters that occur in practice: space, tab, newline, carriage return,
vertical tab, form feed and the non-breaking space. -/
def isPySpace (c : Char) : Bool :=
  c = ' ' || c = '\t' || c = '\n' || c = '\r' ||
  c = Char.ofNat 11 || c = Char.ofNat 12 || c = Char.ofNat 0xA0

/-- Python str.strip with no arguments: remove leading and trailing
whitespace. -/
def pyStrip (s : String) : String :=
  String.mk (((s.toList.dropWhile isPySpace).reverse.dropWhile isPySpace).reverse)

/-- The non-breaking-space character U+00A0. -/
def nbspChar : Char := Char.ofNat 0xA0

/-- Cell-text extraction of src/app.py lines 89 and 104:
get_text with strip, then non-breaking spaces mapped to ordinary spaces.
The single-character replace of the source is expressed characterwise. -/
def cleanCell (s : String) : String :=
  String.mk ((pyStrip s).toList.map (fun c => if c = nbspChar then ' ' else c))

/-- The table with id example1, as the normalizer sees it: an optional
tbody holding the body rows and an optional tfoot holding footer rows.
Each row is the list of the raw texts of its td cells. -/
structure HtmlTable where
  tbody : Option (List (List String))
  tfoot : Option (List (List String))
deriving DecidableEq

/-- The page source handed to the normalizer: either it contains a table
with id example1 or it does not. -/
structure HtmlPage where
  example1 : Option HtmlTable
deriving DecidableEq

/-- Right-pad a row with the sentinel until it has 10 fields
(the while loop of src/app.py lines 94 and 108). -/
def padNA (l : List String) : List String :=
  l ++ List.replicate (10 - l.length) "N/A"

/-- Body-row processing of src/app.py lines 89 to 96: clean every cell,
skip the row when it has no cells, drop the first cell only when there
are at least two cells, pad with the sentinel and keep the first 10. -/
def processBodyRow (tds : List String) : Option (List String) :=
  let cells := tds.map cleanCell
  if cells.isEmpty then none
  else
    let processed := if cells.length > 1 then cells.drop 1 else cells
    some ((padNA processed).take 10)

/-- Footer processing of src/app.py lines 101 to 110: take the first
tfoot row, require more than one cell, drop the first cell, pad with the
sentinel and keep the first 10. -/
def processFooter (table : HtmlTable) : Option (List String) :=
  match table.tfoot with
  | none => none
  | some trs =>
    match trs.head? with
    | none => none
    | some tr =>
      let cells := tr.map cleanCell
      if 1 < cells.length then some ((padNA (cells.drop 1)).take 10)
      else none

/-- The table normalizer, src/app.py lines 55 to 117
(underscore of the source name dropped): return empty rows and an absent
footer when the table or its tbody is missing, otherwise the processed
body rows and the optional processed footer.  The function is total, so
no exception is modelled. -/
def parse_results_table (page : HtmlPage) : List (List String) × Option (List String) :=
  match page.example1 with
  | none => ([], none)
  | some table =>
    match table.tbody with
    | none => ([], none)
    | some trs => (trs.filterMap processBodyRow, processFooter table)

/-- Numeric value of a list of decimal digits. -/
def digitsVal (l : List Char) : Nat :=
  l.foldl (fun a c => a * 10 + (c.toNat - 48)) 0

/-- Model of the Python float builtin on the decimal literals that reach
it here: surrounding whitespace, an optional sign, an integer part
and-or a fractional part, and an optional decimal exponent.  Returns
none when the string is not such a literal, modelling the ValueError the
builtin raises.  Values are exact rationals. -/
def pyFloat (s : String) : Option ℚ :=
  let cs := (pyStrip s).toList
  let sgn : ℚ := if cs.head? = some '-' then -1 else 1
  let cs1 := if cs.head? = some '-' || cs.head? = some '+' then cs.drop 1 else cs
  let ip := cs1.takeWhile Char.isDigit
  let r1 := cs1.dropWhile Char.isDigit
  let fp := if r1.head? = some '.' then (r1.drop 1).takeWhile Char.isDigit else []
  let r2 := if r1.head? = some '.' then (r1.drop 1).dropWhile Char.isDigit else r1
  if ip.isEmpty && fp.isEmpty then none
  else
    let mant : ℚ := (digitsVal (ip ++ fp) : ℚ) / (10 : ℚ) ^ fp.length
    match r2 with
    | [] => some (sgn * mant)
    | e :: t =>
      if e = 'e' || e = 'E' then
        let esgn : Int := if t.head? = some '-' then -1 else 1
        let t1 := if t.head? = some '-' || t.head? = some '+' then t.drop 1 else t
        let ed := t1.takeWhile Char.isDigit
        let t2 := t1.dropWhile Char.isDigit
        if ed.isEmpty || !t2.isEmpty then none
        else some (sgn * mant * (10 : ℚ) ^ (esgn * (digitsVal ed : Int)))
      else none

/-- Comma removal and Unicode-minus normalization applied before
parsing, src/app.py lines 389 and 414, expressed characterwise. -/
def normNum (x : String) : String :=
  String.mk ((x.toList.filter (fun c => c ≠ ',')).map
    (fun c => if c = Char.ofNat 0x2212 then '-' else c))

/-- The digit test of the totals accumulation, src/app.py line 390: some
character of the cell is a decimal digit (the source uses the Python
isdigit method; the cells occurring here are ASCII). -/
def hasDigit (x : String) : Bool := x.toList.any Char.isDigit

/-- One footer cell mapped to a number, src/app.py lines 389 to 391:
parse as a float after normalization when the cell has a digit, else 0.
none models an uncaught ValueError from the float builtin. -/
def toNum (x : String) : Option ℚ :=
  if hasDigit x then pyFloat (normNum x) else some 0

/-- The TotalsVector of a footer row: the list comprehension of
src/app.py lines 389 to 391 and 414 to 416, evaluated left to right
with the first conversion failure aborting the whole comprehension. -/
def totalsVector : List String → Option (List ℚ)
  | [] => some []
  | x :: xs =>
    match toNum x, totalsVector xs with
    | some v, some vs => some (v :: vs)
    | _, _ => none

/-- A master-sequence row: the running serial number prefixed to the 10
data fields (src/app.py lines 386 and 397). -/
structure MasterRow where
  serial : Nat
  fields : List String
deriving DecidableEq

/-- The per-flow aggregation state: the master sequence, the accumulated
totals vectors and the next serial number, initialised to empty lists
and 1 at src/app.py lines 367 to 368. -/
structure FlowState where
  master : List MasterRow
  totals : List (List ℚ)
  serial : Nat
deriving DecidableEq

/-- The inner row loop of src/app.py lines 385 to 387: append each row,
truncated to 10 fields and prefixed with the running serial, then
increment the serial. -/
def appendRows (st : FlowState) (rows : List (List String)) : FlowState :=
  rows.foldl
    (fun s r => ⟨s.master ++ [⟨s.serial, r.take 10⟩], s.totals, s.serial + 1⟩) st

/-- Processing of one fetched code for one flow, src/app.py lines 384 to
400: non-empty rows are appended with serials and an existing footer is
converted and accumulated into the totals, where the float conversion
may raise (modelled by error); empty rows append one placeholder row
carrying the code and nine sentinels, still consuming a serial. -/
def processCode (st : FlowState) (code : String)
    (rows : List (List String)) (footer : Option (List String)) :
    Except Unit FlowState :=
  if rows.isEmpty then
    Except.ok ⟨st.master ++ [⟨st.serial, code :: List.replicate 9 "N/A"⟩],
               st.totals, st.serial + 1⟩
  else
    let st1 := appendRows st rows
    match footer with
    | none => Except.ok st1
    | some f =>
      match totalsVector f with
      | some nums => Except.ok ⟨st1.master, st1.totals ++ [nums], st1.serial⟩
      | none => Except.error ()

/-- The per-flow aggregation over the fetched results of a list of
codes, starting from the empty state with serial 1 (the loop of
src/app.py lines 376 to 400 for one flow direction). -/
def runFlow (inputs : List (String × List (List String) × Option (List String))) :
    Except Unit FlowState :=
  inputs.foldlM (fun st i => processCode st i.1 i.2.1 i.2.2) ⟨[], [], 1⟩

/-- The outcomes the browser environment can offer one fetch call:
driver creation fails; an exception is raised during the interaction
steps 1 to 6; the results table never appears; or a final page source is
produced. -/
inductive FetchEnv
  | prepFails
  | raisesDuringSteps
  | tableNeverAppears
  | resultPage (page : HtmlPage)
deriving DecidableEq

/-- What one fetch call produced: the parse result plus whether a
browser session was created and whether it was quit. -/
structure FetchResult where
  rows : List (List String)
  footer : Option (List String)
  driverCreated : Bool
  driverQuit : Bool
deriving DecidableEq

/-- fetch_trade_data_import, src/app.py lines 122 to 225, as a function
of the browser environment: no driver means an empty return with no
session to quit; any exception inside the try block is caught and yields
an empty return with the finally clause quitting the driver; a missing
results table returns empty through the same finally clause; a final
page is parsed. -/
def fetch_trade_data_import (env : FetchEnv) : FetchResult :=
  match env with
  | .prepFails => ⟨[], none, false, false⟩
  | .raisesDuringSteps => ⟨[], none, true, true⟩
  | .tableNeverAppears => ⟨[], none, true, true⟩
  | .resultPage page =>
    let pr := parse_results_table page
    ⟨pr.1, pr.2, true, true⟩

/-- fetch_trade_data_export, src/app.py lines 227 to 327: identical
control flow to the import fetcher, only the URL and two field names
differ. -/
def fetch_trade_data_export (env : FetchEnv) : FetchResult :=
  fetch_trade_data_import env

/-- Modelled from the spec: the two-decimal rounding of the growth
percentages of the AggregateTotals computation, which is absent from
src/app.py. -/
def round2 (x : ℚ) : ℚ := (round (x * 100) : ℤ) / 100

/-- Columnwise addition of two numeric vectors, the shorter one treated
as padded with zeros. -/
def addVec : List ℚ → List ℚ → List ℚ
  | [], ys => ys
  | x :: xs, [] => x :: xs
  | x :: xs, y :: ys => (x + y) :: addVec xs ys

/-- Modelled from the spec: columnwise sum of the accumulated
TotalsVectors. -/
def sumColumns (vs : List (List ℚ)) : List ℚ := vs.foldl addVec []

/-- Modelled from the spec: a growth percentage with two-decimal
rounding, equal to 0 when the reference value (the denominator) is 0. -/
def growthPct (ref fore : ℚ) : ℚ :=
  if ref = 0 then 0 else round2 ((fore - ref) / ref * 100)

/-- Modelled from the spec: the AggregateTotals row labelled ALL, absent
from src/app.py where totals_imp and totals_exp are accumulated but
never consumed.  Column positions follow the headers of src/app.py lines
433 to 438: within the 10 data fields, indices 2 and 3 hold the March
reference and forecast values and indices 5 and 6 the fiscal-year
ones. -/
structure AggregateTotals where
  label : String
  sums : List ℚ
  growthMar : ℚ
  growthFY : ℚ
deriving DecidableEq

/-- Modelled from the spec: compute the AggregateTotals of the
accumulated TotalsVectors. -/
def aggregate (vs : List (List ℚ)) : AggregateTotals :=
  let s := sumColumns vs
  ⟨"ALL", s, growthPct (s.getD 2 0) (s.getD 3 0), growthPct (s.getD 5 0) (s.getD 6 0)⟩

end TradeFetcher

namespace TradeFetcher

/-- C8: for every page without a table of id example1 the normalizer
returns an empty row sequence and an absent footer; being a total
function of the page, it raises no exception. -/
theorem c8_no_table (page : HtmlPage) (h : page.example1 = none) :
    parse_results_table page = ([], none) := by
  unfold parse_results_table
  rw [h]

/-- Witness for c8_no_table at the concrete page with no table. -/
theorem c8_no_table_witness :
    parse_results_table ⟨none⟩ = ([], none) :=
  c8_no_table ⟨none⟩ rfl

/-- C10: for every page whose example1 table is present but has no tbody
the normalizer returns an empty row sequence and an absent footer, even
when the table carries a tfoot with a totals row. -/
theorem c10_no_tbody (table : HtmlTable) (h : table.tbody = none) :
    parse_results_table ⟨some table⟩ = ([], none) := by
  obtain ⟨tb, tf⟩ := table
  cases tb with
  | none => rfl
  | some trs => simp at h

/-- Witness for c10_no_tbody: a table with no tbody but a tfoot holding a
totals row still yields empty rows and an absent footer. -/
theorem c10_no_tbody_witness :
    parse_results_table ⟨some ⟨none, some [["TOTAL", "1,234.50"]]⟩⟩ = ([], none) :=
  c10_no_tbody ⟨none, some [["TOTAL", "1,234.50"]]⟩ rfl

theorem padNA_length (l : List String) :
    (padNA l).length = l.length + (10 - l.length) := by
  simp [padNA]

theorem take_padNA_length (l : List String) : ((padNA l).take 10).length = 10 := by
  rw [List.length_take, padNA_length]
  omega

theorem padNA_of_length_ge (l : List String) (h : 10 ≤ l.length) : padNA l = l := by
  simp [padNA, Nat.sub_eq_zero_of_le h]

theorem processBodyRow_nil : processBodyRow [] = none := rfl

theorem processBodyRow_single (a : String) :
    processBodyRow [a] = some ((padNA [cleanCell a]).take 10) := rfl

theorem processBodyRow_cons2 (a b : String) (l : List String) :
    processBodyRow (a :: b :: l) = some ((padNA ((b :: l).map cleanCell)).take 10) := by
  have h : (cleanCell a :: cleanCell b :: l.map cleanCell).length > 1 := by
    simp
  simp only [processBodyRow, List.map_cons, List.isEmpty_cons, if_false, Bool.false_eq_true]
  rw [if_pos h]
  rfl

theorem processBodyRow_length (tds r : List String)
    (h : processBodyRow tds = some r) : r.length = 10 := by
  cases tds with
  | nil => simp [processBodyRow_nil] at h
  | cons a l =>
    cases l with
    | nil =>
      rw [processBodyRow_single] at h
      cases h
      exact take_padNA_length _
    | cons b l2 =>
      rw [processBodyRow_cons2] at h
      cases h
      exact take_padNA_length _

theorem length_filterMap_body (trs : List (List String)) :
    (trs.filterMap processBodyRow).length =
      (trs.filter (fun r => !r.isEmpty)).length := by
  induction trs with
  | nil => rfl
  | cons tds rest ih =>
    cases tds with
    | nil =>
      simp [List.filterMap_cons, processBodyRow_nil, ih]
    | cons a l =>
      cases l with
      | nil => simp [List.filterMap_cons, processBodyRow_single, ih]
      | cons b l2 => simp [List.filterMap_cons, processBodyRow_cons2, ih]

theorem parse_results_table_body (page : HtmlPage) (table : HtmlTable)
    (trs : List (List String)) (h1 : page.example1 = some table)
    (h2 : table.tbody = some trs) :
    parse_results_table page = (trs.filterMap processBodyRow, processFooter table) := by
  obtain ⟨e⟩ := page
  simp only at h1
  subst h1
  obtain ⟨tb, tf⟩ := table
  simp only at h2
  subst h2
  rfl

/-- C1: corrected.  For every page whose example1 table has a tbody, the
normalizer returns one TradeRow per body row that has at least one cell
(a row without cells is skipped, which refutes the count claim for
arbitrary body rows), and every returned row has length exactly 10. -/
theorem c1_body_rows_amended (page : HtmlPage) (table : HtmlTable)
    (trs : List (List String)) (h1 : page.example1 = some table)
    (h2 : table.tbody = some trs) :
    (parse_results_table page).1.length =
      (trs.filter (fun r => !r.isEmpty)).length ∧
    ∀ r ∈ (parse_results_table page).1, r.length = 10 := by
  rw [parse_results_table_body page table trs h1 h2]
  constructor
  · exact length_filterMap_body trs
  · intro r hr
    rw [List.mem_filterMap] at hr
    obtain ⟨tds, _, hsome⟩ := hr
    exact processBodyRow_length tds r hsome

/-- Witness for c1_body_rows_amended at a concrete two-row tbody, one
row with cells and one without. -/
theorem c1_body_rows_witness :
    (parse_results_table ⟨some ⟨some [["sel", "7008"], []], none⟩⟩).1.length =
      ([[ "sel", "7008"], []].filter (fun r => !r.isEmpty)).length ∧
    ∀ r ∈ (parse_results_table ⟨some ⟨some [["sel", "7008"], []], none⟩⟩).1,
      r.length = 10 :=
  c1_body_rows_amended ⟨some ⟨some [["sel", "7008"], []], none⟩⟩
    ⟨some [["sel", "7008"], []], none⟩ [["sel", "7008"], []] rfl rfl

/-- C1 counterexample: a tbody with exactly one body row, which has no
cells, yields zero TradeRows, so the normalizer does not return exactly
one TradeRow per body row. -/
theorem c1_counterexample :
    (parse_results_table ⟨some ⟨some [[]], none⟩⟩).1.length = 0 ∧
    [([] : List String)].length = 1 :=
  ⟨rfl, rfl⟩

/-- C3: corrected.  Per body row the normalizer cleans every cell text,
skips the row when it has no cells, drops the first cell only when the
row has at least two cells (a single-cell row is kept whole), right-pads
with the sentinel and truncates to exactly 10 fields; with more than 11
source cells the result is the pure truncation of the dropped row. -/
theorem c3_row_normalization_amended (tds : List String) :
    (processBodyRow tds = none ↔ tds = []) ∧
    (∀ a b l, tds = a :: b :: l →
      processBodyRow tds = some ((padNA ((tds.map cleanCell).drop 1)).take 10)) ∧
    (∀ a, tds = [a] →
      processBodyRow tds = some ((padNA [cleanCell a]).take 10)) ∧
    (11 < tds.length →
      processBodyRow tds = some (((tds.map cleanCell).drop 1).take 10)) ∧
    (∀ r, processBodyRow tds = some r → r.length = 10) := by
  refine ⟨?_, ?_, ?_, ?_, ?_⟩
  · cases tds with
    | nil => simp [processBodyRow_nil]
    | cons a l =>
      cases l with
      | nil => simp [processBodyRow_single]
      | cons b l2 => simp [processBodyRow_cons2]
  · rintro a b l rfl
    rw [processBodyRow_cons2]
    rfl
  · rintro a rfl
    exact processBodyRow_single a
  · intro hlen
    match tds, hlen with
    | a :: b :: l, hlen =>
      rw [processBodyRow_cons2]
      have hge : 10 ≤ ((b :: l).map cleanCell).length := by
        simp only [List.length_map, List.length_cons]
        simp only [List.length_cons] at hlen
        omega
      rw [padNA_of_length_ge _ hge]
      rfl
  · intro r
    exact processBodyRow_length tds r

/-- Witness for c3_row_normalization_amended at a concrete three-cell
row: the first cell is dropped and the rest padded to 10. -/
theorem c3_row_normalization_witness :
    processBodyRow ["sel", "7008", "Glass"] =
      some ((padNA (((["sel", "7008", "Glass"]).map cleanCell).drop 1)).take 10) :=
  (c3_row_normalization_amended ["sel", "7008", "Glass"]).2.1 "sel" "7008" ["Glass"] rfl

/-- C3 counterexample: a body row with exactly one cell keeps that cell
instead of dropping it, so the result differs from the claimed
drop-first-then-pad processing of that row. -/
theorem c3_counterexample :
    processBodyRow ["7008"] = some ("7008" :: List.replicate 9 "N/A") ∧
    ("7008" :: List.replicate 9 "N/A") ≠
      (padNA (((["7008"]).map cleanCell).drop 1)).take 10 :=
  ⟨by decide, by decide⟩

theorem parse_results_table_footer (page : HtmlPage) (table : HtmlTable)
    (trs : List (List String)) (h1 : page.example1 = some table)
    (h2 : table.tbody = some trs) :
    (parse_results_table page).2 = processFooter table := by
  rw [parse_results_table_body page table trs h1 h2]

/-- C7: corrected.  When the example1 table has a tbody, the footer of
the parse is the first tfoot row processed by the body-row rule
(drop the first cell, pad with the sentinel, keep 10) provided that row
has at least two cells; the footer is absent exactly when there is no
tfoot row or the first tfoot row has at most one cell, refuting absence
exactly on missing footers. -/
theorem c7_footer_amended (page : HtmlPage) (table : HtmlTable)
    (trs : List (List String)) (h1 : page.example1 = some table)
    (h2 : table.tbody = some trs) :
    (∀ fr, table.tfoot.bind List.head? = some fr → 2 ≤ fr.length →
      (parse_results_table page).2 =
        some ((padNA ((fr.map cleanCell).drop 1)).take 10)) ∧
    ((parse_results_table page).2 = none ↔
      ∀ fr, table.tfoot.bind List.head? = some fr → fr.length ≤ 1) := by
  rw [parse_results_table_footer page table trs h1 h2]
  obtain ⟨tb, tf⟩ := table
  cases tf with
  | none => simp [processFooter]
  | some frs =>
    cases frs with
    | nil => simp [processFooter]
    | cons fr rest =>
      by_cases hlen : 2 ≤ fr.length
      · have hc : 1 < (fr.map cleanCell).length := by
          rw [List.length_map]; omega
        constructor
        · rintro fr2 hfr2 _
          simp at hfr2
          subst hfr2
          have h1lt : 1 < fr.length := by omega
          simp [processFooter, h1lt]
        · simp [processFooter, if_pos hc]
      · have hc : ¬ 1 < (fr.map cleanCell).length := by
          rw [List.length_map]; omega
        constructor
        · rintro fr2 hfr2 hge2
          simp at hfr2
          subst hfr2
          omega
        · simp [processFooter, if_neg hc]

/-- Witness for c7_footer_amended at a concrete three-cell footer row. -/
theorem c7_footer_witness :
    (parse_results_table
        ⟨some ⟨some [], some [["TOTAL", "", "1,234.50"]]⟩⟩).2 =
      some ((padNA (((["TOTAL", "", "1,234.50"]).map cleanCell).drop 1)).take 10) :=
  (c7_footer_amended ⟨some ⟨some [], some [["TOTAL", "", "1,234.50"]]⟩⟩
      ⟨some [], some [["TOTAL", "", "1,234.50"]]⟩ [] rfl rfl).1
    ["TOTAL", "", "1,234.50"] rfl (by decide)

/-- C7 counterexample: a table with a tfoot whose first row has exactly
one cell yields an absent footer, although the source table does have a
footer row, and in particular not the claimed processed footer. -/
theorem c7_counterexample :
    (parse_results_table ⟨some ⟨some [], some [["TOTAL"]]⟩⟩).2 = none ∧
    (parse_results_table ⟨some ⟨some [], some [["TOTAL"]]⟩⟩).2 ≠
      some ((padNA (((["TOTAL"]).map cleanCell).drop 1)).take 10) :=
  ⟨by decide, by decide⟩

/-- C4: every footer cell with at least one digit is parsed as a float
after comma removal and Unicode-minus normalization, a cell without a
digit maps to 0; on the concrete footer of the spec the vector is
computed exactly, with 1,234.50 parsing to 1234.50 and the minus glyph
honoured. -/
theorem c4_totals_vector (x : String) :
    (hasDigit x = false → toNum x = some 0) ∧
    (hasDigit x = true → toNum x = pyFloat (normNum x)) ∧
    totalsVector ["TOTAL", "", "1,234.50", "2,345.60"] =
      some [0, 0, (2469 : ℚ) / 2, (11728 : ℚ) / 5] ∧
    toNum "−1,234.50" = some (-((2469 : ℚ) / 2)) := by
  refine ⟨?_, ?_, ?_, ?_⟩
  · intro h
    simp [toNum, h]
  · intro h
    simp [toNum, h]
  · simp +decide [totalsVector, toNum, hasDigit, normNum, pyFloat, pyStrip, digitsVal]
    norm_num
  · simp +decide [toNum, hasDigit, normNum, pyFloat, pyStrip, digitsVal]
    norm_num

/-- Witness for c4_totals_vector at the digit-free cell TOTAL. -/
theorem c4_totals_vector_witness : toNum "TOTAL" = some 0 :=
  (c4_totals_vector "TOTAL").1 (by decide)

theorem totalsVector_isSome (f : List String)
    (h : ∀ x ∈ f, hasDigit x = true → (pyFloat (normNum x)).isSome = true) :
    (totalsVector f).isSome = true := by
  induction f with
  | nil => rfl
  | cons x xs ih =>
    have hx : (toNum x).isSome = true := by
      by_cases hd : hasDigit x = true
      · simpa [toNum, hd] using h x (List.mem_cons_self x xs) hd
      · simp [toNum, hd]
    have hxs : (totalsVector xs).isSome = true :=
      ih (fun y hy hd => h y (List.mem_cons_of_mem x hy) hd)
    obtain ⟨v, hv⟩ := Option.isSome_iff_exists.mp hx
    obtain ⟨vs, hvs⟩ := Option.isSome_iff_exists.mp hxs
    simp [totalsVector, hv, hvs]

/-- C9: the footer-to-TotalsVector conversion succeeds whenever every
digit-bearing cell normalizes to a valid float literal; a cell carrying
a digit inside non-numeric text makes the conversion fail, and that
failure propagates out of the per-code aggregation step as an uncaught
error rather than an empty result. -/
theorem c9_totals_partiality (f : List String) :
    ((∀ x ∈ f, hasDigit x = true → (pyFloat (normNum x)).isSome = true) →
      (totalsVector f).isSome = true) ∧
    totalsVector ["TOTAL", "Rank 1"] = none ∧
    hasDigit "Rank 1" = true ∧
    (∀ st code r rs, processCode st code (r :: rs) (some ["TOTAL", "Rank 1"]) =
      Except.error ()) := by
  refine ⟨totalsVector_isSome f, by decide, by decide, ?_⟩
  intro st code r rs
  have hnone : totalsVector ["TOTAL", "Rank 1"] = none := by decide
  simp [processCode, hnone]

/-- Witness for c9_totals_partiality at a one-cell numeric footer. -/
theorem c9_totals_partiality_witness : (totalsVector ["12.3"]).isSome = true :=
  (c9_totals_partiality ["12.3"]).1 (by decide)

/-- C5: whenever the browser environment raises during the interaction
steps the fetchers return empty rows and an absent footer, and in every
environment in which a browser session was created it is also quit,
for the import and the export fetcher alike. -/
theorem c5_fetch_failure (env : FetchEnv) :
    (env = FetchEnv.raisesDuringSteps →
      fetch_trade_data_import env = ⟨[], none, true, true⟩ ∧
      fetch_trade_data_export env = ⟨[], none, true, true⟩) ∧
    ((fetch_trade_data_import env).driverCreated = true →
      (fetch_trade_data_import env).driverQuit = true) ∧
    ((fetch_trade_data_export env).driverCreated = true →
      (fetch_trade_data_export env).driverQuit = true) := by
  cases env <;>
    simp [fetch_trade_data_import, fetch_trade_data_export]

/-- Witness for c5_fetch_failure at the environment that raises during
the interaction steps. -/
theorem c5_fetch_failure_witness :
    fetch_trade_data_import FetchEnv.raisesDuringSteps = ⟨[], none, true, true⟩ ∧
    fetch_trade_data_export FetchEnv.raisesDuringSteps = ⟨[], none, true, true⟩ :=
  (c5_fetch_failure FetchEnv.raisesDuringSteps).1 rfl

theorem snoc_serials (m : List MasterRow) (x : MasterRow)
    (h1 : m.map MasterRow.serial = List.range' 1 m.length)
    (hx : x.serial = m.length + 1) :
    (m ++ [x]).map MasterRow.serial = List.range' 1 (m ++ [x]).length := by
  simp only [List.map_append, h1, List.map_cons, List.map_nil, hx,
    List.length_append, List.length_cons, List.length_nil, Nat.add_zero]
  rw [List.range'_concat]
  simp [Nat.add_comm]

theorem appendRows_serials (rows : List (List String)) (st : FlowState)
    (h1 : st.master.map MasterRow.serial = List.range' 1 st.master.length)
    (h2 : st.serial = st.master.length + 1) :
    (appendRows st rows).master.map MasterRow.serial =
      List.range' 1 (appendRows st rows).master.length ∧
    (appendRows st rows).serial = (appendRows st rows).master.length + 1 := by
  induction rows generalizing st with
  | nil => exact ⟨h1, h2⟩
  | cons r rs ih =>
    have hstep :
        appendRows st (r :: rs) =
          appendRows ⟨st.master ++ [⟨st.serial, r.take 10⟩], st.totals, st.serial + 1⟩ rs :=
      rfl
    rw [hstep]
    apply ih
    · exact snoc_serials st.master ⟨st.serial, r.take 10⟩ h1 h2
    · simp [h2]

theorem processCode_serials (st st2 : FlowState) (code : String)
    (rows : List (List String)) (footer : Option (List String))
    (h : processCode st code rows footer = Except.ok st2)
    (h1 : st.master.map MasterRow.serial = List.range' 1 st.master.length)
    (h2 : st.serial = st.master.length + 1) :
    st2.master.map MasterRow.serial = List.range' 1 st2.master.length ∧
    st2.serial = st2.master.length + 1 := by
  by_cases hre : rows.isEmpty
  · simp only [processCode, if_pos hre, Except.ok.injEq] at h
    subst h
    refine ⟨snoc_serials st.master ⟨st.serial, code :: List.replicate 9 "N/A"⟩ h1 h2, ?_⟩
    simp [h2]
  · obtain ⟨hm, hs⟩ := appendRows_serials rows st h1 h2
    cases footer with
    | none =>
      simp only [processCode, if_neg hre, Except.ok.injEq] at h
      subst h
      exact ⟨hm, hs⟩
    | some f =>
      cases htv : totalsVector f with
      | none =>
        simp only [processCode, if_neg hre, htv] at h
        exact Except.noConfusion h
      | some nums =>
        simp only [processCode, if_neg hre, htv, Except.ok.injEq] at h
        subst h
        exact ⟨hm, hs⟩

theorem foldl_processCode_serials
    (inputs : List (String × List (List String) × Option (List String)))
    (st st2 : FlowState)
    (h : inputs.foldlM (fun s i => processCode s i.1 i.2.1 i.2.2) st = Except.ok st2)
    (h1 : st.master.map MasterRow.serial = List.range' 1 st.master.length)
    (h2 : st.serial = st.master.length + 1) :
    st2.master.map MasterRow.serial = List.range' 1 st2.master.length ∧
    st2.serial = st2.master.length + 1 := by
  induction inputs generalizing st with
  | nil =>
    have heq : st = st2 := Except.ok.inj h
    subst heq
    exact ⟨h1, h2⟩
  | cons i is ih =>
    rw [List.foldlM_cons] at h
    cases hpc : processCode st i.1 i.2.1 i.2.2 with
    | error e =>
      rw [hpc] at h
      exact Except.noConfusion h
    | ok st1 =>
      rw [hpc] at h
      obtain ⟨g1, g2⟩ := processCode_serials st st1 i.1 i.2.1 i.2.2 hpc h1 h2
      exact ih st1 h g1 g2

/-- C6: within one flow the serials prefixed to the master rows are the
strictly increasing sequence 1, 2, 3, and so on in append order, a
placeholder row consumes a serial and carries the code followed by nine
sentinels, and the two-code scenario where 7008 yields 3 rows and
44111200 yields none produces exactly 4 master rows with serials 1 to 4
and a serial-4 placeholder for 44111200. -/
theorem c6_serials
    (inputs : List (String × List (List String) × Option (List String)))
    (st : FlowState) (h : runFlow inputs = Except.ok st) :
    (st.master.map MasterRow.serial = List.range' 1 st.master.length ∧
     st.serial = st.master.length + 1) ∧
    (∀ st0 code footer, processCode st0 code [] footer =
      Except.ok ⟨st0.master ++ [⟨st0.serial, code :: List.replicate 9 "N/A"⟩],
                 st0.totals, st0.serial + 1⟩) ∧
    (∀ r1 r2 r3 : List String,
      runFlow [("7008", [r1, r2, r3], none), ("44111200", [], none)] =
        Except.ok ⟨[⟨1, r1.take 10⟩, ⟨2, r2.take 10⟩, ⟨3, r3.take 10⟩,
                    ⟨4, "44111200" :: List.replicate 9 "N/A"⟩], [], 5⟩) := by
  refine ⟨foldl_processCode_serials inputs ⟨[], [], 1⟩ st h rfl rfl, ?_, ?_⟩
  · intro st0 code footer
    rfl
  · intro r1 r2 r3
    rfl

/-- Witness for c6_serials at the concrete two-code import scenario. -/
theorem c6_serials_witness :
    (FlowState.mk [⟨1, ["a"]⟩, ⟨2, ["b"]⟩, ⟨3, ["c"]⟩,
        ⟨4, "44111200" :: List.replicate 9 "N/A"⟩] [] 5).master.map MasterRow.serial =
      List.range' 1 (FlowState.mk [⟨1, ["a"]⟩, ⟨2, ["b"]⟩, ⟨3, ["c"]⟩,
        ⟨4, "44111200" :: List.replicate 9 "N/A"⟩] [] 5).master.length ∧
    (FlowState.mk [⟨1, ["a"]⟩, ⟨2, ["b"]⟩, ⟨3, ["c"]⟩,
        ⟨4, "44111200" :: List.replicate 9 "N/A"⟩] [] 5).serial =
      (FlowState.mk [⟨1, ["a"]⟩, ⟨2, ["b"]⟩, ⟨3, ["c"]⟩,
        ⟨4, "44111200" :: List.replicate 9 "N/A"⟩] [] 5).master.length + 1 :=
  (c6_serials [("7008", [["a"], ["b"], ["c"]], none), ("44111200", [], none)]
      (FlowState.mk [⟨1, ["a"]⟩, ⟨2, ["b"]⟩, ⟨3, ["c"]⟩,
        ⟨4, "44111200" :: List.replicate 9 "N/A"⟩] [] 5) rfl).1

theorem addVec_getD (xs ys : List ℚ) (i : ℕ) :
    (addVec xs ys).getD i 0 = xs.getD i 0 + ys.getD i 0 := by
  induction xs generalizing ys i with
  | nil => cases ys <;> simp [addVec]
  | cons x xs ih =>
    cases ys with
    | nil => simp [addVec]
    | cons y ys =>
      cases i with
      | zero => simp [addVec]
      | succ n => simpa [addVec] using ih ys n

theorem foldl_addVec_getD (vs : List (List ℚ)) (acc : List ℚ) (i : ℕ) :
    (vs.foldl addVec acc).getD i 0 =
      acc.getD i 0 + (vs.map (fun v => v.getD i 0)).sum := by
  induction vs generalizing acc with
  | nil => simp
  | cons v vs ih =>
    simp only [List.foldl_cons, ih, addVec_getD, List.map_cons, List.sum_cons]
    ring

theorem sumColumns_getD (vs : List (List ℚ)) (i : ℕ) :
    (sumColumns vs).getD i 0 = (vs.map (fun v => v.getD i 0)).sum := by
  simpa [sumColumns] using foldl_addVec_getD vs [] i

/-- C2: the AggregateTotals (modelled from the spec, the computation
being absent from src/app.py) is labelled ALL, its sums are the
columnwise sums of the accumulated TotalsVectors, its growth percentages
come from the fixed column positions with two-decimal rounding, a zero
summed reference value gives growth 0 instead of a division by zero, and
summed reference 1000 with forecast 1100 gives growth 10. -/
theorem c2_aggregate_totals (vs : List (List ℚ)) :
    (aggregate vs).label = "ALL" ∧
    (∀ i, (aggregate vs).sums.getD i 0 = (vs.map (fun v => v.getD i 0)).sum) ∧
    (aggregate vs).growthMar =
      growthPct ((sumColumns vs).getD 2 0) ((sumColumns vs).getD 3 0) ∧
    (aggregate vs).growthFY =
      growthPct ((sumColumns vs).getD 5 0) ((sumColumns vs).getD 6 0) ∧
    ((sumColumns vs).getD 2 0 = 0 → (aggregate vs).growthMar = 0) ∧
    ((sumColumns vs).getD 5 0 = 0 → (aggregate vs).growthFY = 0) ∧
    ((sumColumns vs).getD 2 0 ≠ 0 → (aggregate vs).growthMar =
      round2 (((sumColumns vs).getD 3 0 - (sumColumns vs).getD 2 0) /
        (sumColumns vs).getD 2 0 * 100)) ∧
    (aggregate [[0, 0, 400, 440, 0, 0, 0, 0, 0, 0],
                [0, 0, 600, 660, 0, 0, 0, 0, 0, 0]]).growthMar = 10 := by
  refine ⟨rfl, fun i => sumColumns_getD vs i, rfl, rfl, ?_, ?_, ?_, ?_⟩
  · intro h
    simp only [aggregate, growthPct]
    rw [if_pos h]
  · intro h
    simp only [aggregate, growthPct]
    rw [if_pos h]
  · intro h
    simp only [aggregate, growthPct]
    rw [if_neg h]
  · simp [aggregate, sumColumns, addVec, growthPct, round2]
    norm_num [round_eq]

/-- Witness for c2_aggregate_totals: with no accumulated totals the
summed reference value is 0 and the March growth is 0. -/
theorem c2_aggregate_totals_witness : (aggregate []).growthMar = 0 :=
  (c2_aggregate_totals []).2.2.2.2.1 rfl

end TradeFetcher
